import Mathlib

/-!
Shallow embedding of the HAProxy cloud-discovery daemon
(`haproxy_cloud_discovery`, with the legacy `haproxy_azure_discovery` tree
supplying `transaction.py`, `dataplane_client.py` and `change_detector.py`,
which the multi-cloud tree imports but does not duplicate).

Python floats are modelled as exact rationals (`ℚ`); `math.ceil` is `Int.ceil`;
`math.ceil(math.log(a/b)/math.log(g))` is modelled by its exact-arithmetic
value, the least integer `n` with `g ^ n ≥ a / b` (for `g > 1`; for
`0 < g < 1` the least integer `n` with `g ^ n ≤ a / b`).  Python exceptions
are modelled with `Except`; calls the code issues against the Dataplane API
are modelled as explicit traces.
-/

namespace HaproxyDiscovery

/-- Python `ZeroDivisionError` / `ValueError` as raised inside
`SlotAllocator.calculate_slots`. -/
inductive PyError where
  | zeroDivision
  | valueError
deriving DecidableEq, Repr

/-! ## config.py — the dataclasses read by `_validate` and the components -/

/-- Model of `ServerSlotsConfig` (config.py).  `growth_factor` is a Python float,
modelled exactly as a rational. -/
structure ServerSlotsConfig where
  base : ℕ
  growth_factor : ℚ
  growth_type : String
deriving DecidableEq, Repr

/-- Model of `BackendConfig` (config.py).  `namePre`/`nameSep` stand for the source's
backend name prefix and separator fields. -/
structure BackendConfig where
  namePre : String
  nameSep : String
  balance : String
  mode : String
deriving DecidableEq, Repr

/-- Model of `PollingConfig` (config.py). -/
structure PollingConfig where
  interval_seconds : ℤ
  jitter_seconds : ℤ
  max_backoff_seconds : ℤ
  backoff_base_seconds : ℤ
deriving DecidableEq, Repr

/-- Model of `AzureConfig` (config.py), the fields `_validate` reads. -/
structure AzureConfig where
  subscription_id : String
deriving DecidableEq, Repr

/-- Model of `AWSConfig` (config.py), the fields `_validate` reads. -/
structure AWSConfig where
  region : String
deriving DecidableEq, Repr

/-- Model of `HAProxyConfig` (config.py), the fields used by the reconciler and
`_validate`. -/
structure HAProxyConfig where
  backend : BackendConfig
  server_slots : ServerSlotsConfig
  availability_zone : Option String
  az_weight_tag : String
  backend_options : List (String × List (String × String))
deriving DecidableEq, Repr

/-- Model of `AppConfig` (config.py), the fields `_validate` reads. -/
structure AppConfig where
  azure : Option AzureConfig
  aws : Option AWSConfig
  haproxy : HAProxyConfig
  polling : PollingConfig
deriving DecidableEq, Repr

/-- Translation of `_validate` (config.py).  The `isinstance(availability_zone, int)` guard
concerns raw-YAML typing and is vacuous in this typed model
(`availability_zone : Option String`); every other check is translated. -/
def validateConfig (config : AppConfig) : Except String Unit :=
  let has_azure : Bool := match config.azure with
    | some a => a.subscription_id ≠ ""
    | none => false
  let has_aws : Bool := match config.aws with
    | some a => a.region ≠ ""
    | none => false
  if has_azure ∧ has_aws then
    .error "Both azure and aws sections are configured"
  else if ¬ has_azure ∧ ¬ has_aws then
    .error "No cloud provider configured"
  else if config.haproxy.server_slots.base < 10 then
    .error "haproxy.server_slots.base must be >= 10"
  else if config.haproxy.server_slots.growth_type ≠ "linear" ∧
      config.haproxy.server_slots.growth_type ≠ "exponential" then
    .error "haproxy.server_slots.growth_type must be linear or exponential"
  else if config.polling.interval_seconds < 5 then
    .error "polling.interval_seconds must be >= 5"
  else if config.haproxy.backend.mode ≠ "http" ∧ config.haproxy.backend.mode ≠ "tcp" then
    .error "haproxy.backend.mode must be http or tcp"
  else
    .ok ()

/-! ## slot_allocator.py -/

namespace SlotAllocator

/-- Exact value of Python's `math.ceil(math.log(a / b) / math.log(g))` for
`0 < b < a` and `0 < g`, `g ≠ 1`: for `g > 1` it is the least `n : ℕ` with
`a ≤ b * g ^ n` (that least `n` is automatically ≥ 1 since `b < a`); for
`0 < g < 1` it is `1 - m` where `m` is the least natural with
`(a : ℚ) / b < (1 / g) ^ m`.  Outside those guards (never reached from
`calculate_slots`) the value is 0. -/
def ceilLogRatio (a b : ℕ) (g : ℚ) : ℤ :=
  if h : 1 < g ∧ (b : ℚ) < (a : ℚ) ∧ 0 < b then
    (Nat.find (p := fun n => (a : ℚ) ≤ (b : ℚ) * g ^ n)
      (by
        obtain ⟨n, hn⟩ := pow_unbounded_of_one_lt ((a : ℚ) / (b : ℚ)) h.1
        have hb : (0 : ℚ) < (b : ℚ) := by exact_mod_cast h.2.2
        exact ⟨n, le_of_lt (by calc (a : ℚ) = (a / b) * b := by field_simp
                                  _ < g ^ n * b := by exact mul_lt_mul_of_pos_right hn hb
                                  _ = (b : ℚ) * g ^ n := by ring)⟩) : ℤ)
  else if h' : 0 < g ∧ g < 1 ∧ (b : ℚ) < (a : ℚ) ∧ 0 < b then
    1 - (Nat.find (p := fun m => (a : ℚ) / (b : ℚ) < (1 / g) ^ m)
      (pow_unbounded_of_one_lt ((a : ℚ) / (b : ℚ)) (one_lt_one_div h'.1 h'.2.1)) : ℤ)
  else 0

/-- The value of the linear branch of `calculate_slots`:
`base + math.ceil((active_count - base) * growth_factor)`. -/
def linear_slots (base : ℕ) (g : ℚ) (active_count : ℕ) : ℤ :=
  (base : ℤ) + ⌈((active_count : ℚ) - (base : ℚ)) * g⌉

/-- The value of the exponential branch of `calculate_slots`:
`max(int(math.ceil(base * growth_factor ** n)), active_count)` with
`n = ceilLogRatio active_count base growth_factor`. -/
def exp_slots (base : ℕ) (g : ℚ) (active_count : ℕ) : ℤ :=
  max ⌈(base : ℚ) * g ^ (ceilLogRatio active_count base g)⌉ (active_count : ℤ)

/-- Translation of `SlotAllocator.calculate_slots` (slot_allocator.py), including the Python
errors its float arithmetic can raise: for the exponential branch,
`active_count / base` raises `ZeroDivisionError` when `base = 0`;
`math.log(growth_factor)` raises `ValueError` when `growth_factor ≤ 0`; and
the division by `math.log(growth_factor) = 0` raises `ZeroDivisionError`
when `growth_factor = 1`. -/
def calculate_slots (cfg : ServerSlotsConfig) (active_count : ℕ) : Except PyError ℤ :=
  if active_count ≤ cfg.base then .ok (cfg.base : ℤ)
  else if cfg.growth_type = "exponential" then
    if cfg.base = 0 then .error .zeroDivision
    else if cfg.growth_factor ≤ 0 then .error .valueError
    else if cfg.growth_factor = 1 then .error .zeroDivision
    else .ok (exp_slots cfg.base cfg.growth_factor active_count)
  else .ok (linear_slots cfg.base cfg.growth_factor active_count)

/-- Translation of `SlotAllocator.generate_server_names` (slot_allocator.py):
`["srv1", ..., "srvN"]`; Python's `range(1, count + 1)` is empty when the
count is not positive. -/
def generate_server_names (count : ℤ) : List String :=
  (List.range count.toNat).map (fun i => "srv" ++ toString (i + 1))

end SlotAllocator

/-! ## Python helpers shared by several modules -/

/-- A Python `dict[str, str]` as an association list (keys unique in any
actual dict; the claims below are stated so that duplicates are harmless). -/
abbrev Tags := List (String × String)

/-- Python `dict.get(key)`: the value of the first matching key, if any. -/
def tags_get (tags : Tags) (k : String) : Option String :=
  (tags.find? (fun kv => kv.1 = k)).map (·.2)

/-- The value of a non-empty all-digit character run, for `pyInt`. -/
def digitsVal (l : List Char) : Option ℕ :=
  if l ≠ [] ∧ l.all Char.isDigit then
    some (l.foldl (fun acc c => 10 * acc + (c.toNat - '0'.toNat)) 0)
  else none

/-- Python `int(raw)` on a string: optional sign followed by decimal digits.
(Python additionally strips surrounding whitespace and allows `_` separators;
no claim depends on such inputs.) -/
def pyInt (s : String) : Option ℤ :=
  match s.data with
  | '+' :: rest => (digitsVal rest).map (fun n => (n : ℤ))
  | '-' :: rest => (digitsVal rest).map (fun n => -(n : ℤ))
  | l => (digitsVal l).map (fun n => (n : ℤ))

/-! ## discovery/models.py -/

/-- Model of `DiscoveredInstance` (discovery/models.py); `created_at` is an opaque
timestamp, modelled as an integer. -/
structure DiscoveredInstance where
  instance_id : String
  name : String
  private_ip : String
  service_name : String
  service_port : ℕ
  region : String
  tags : Tags
  instance_port : Option ℕ
  availability_zone : Option String
  created_at : Option ℤ
deriving DecidableEq, Repr

/-- Property `DiscoveredInstance.effective_port`: `instance_port` overrides
`service_port`. -/
def DiscoveredInstance.effective_port (i : DiscoveredInstance) : ℕ :=
  match i.instance_port with
  | some p => p
  | none => i.service_port

/-- Model of `DiscoveredService` (discovery/models.py); `AzureService` is an alias of
it in the legacy tree. -/
structure DiscoveredService where
  service_name : String
  service_port : ℕ
  region : String
  instances : List DiscoveredInstance
deriving DecidableEq, Repr

/-- Property `DiscoveredService.active_count`. -/
def DiscoveredService.active_count (s : DiscoveredService) : ℕ :=
  s.instances.length

/-- Method `DiscoveredService.backend_name`:
`f"{prefix}{sep}{service_name}{sep}{service_port}{sep}{region}"`. -/
def DiscoveredService.backend_name (s : DiscoveredService) (pre sep : String) : String :=
  pre ++ sep ++ s.service_name ++ sep ++ toString s.service_port ++ sep ++ s.region

/-! ## discovery/tag_filter.py -/

/-- Model of `TagsConfig` (config.py), the fields `TagFilter` reads. -/
structure TagsConfig where
  allowlist : List (String × String)
  denylist : List (String × String)
deriving DecidableEq, Repr

namespace TagFilter

/-- Translation of `TagFilter._matches` (tag_filter.py): the denylist loop runs first and
returns `False` on any match; then the allowlist loop returns `False` on any
mismatch. -/
def _matches (cfg : TagsConfig) (inst : DiscoveredInstance) : Bool :=
  if cfg.denylist.any (fun kv => tags_get inst.tags kv.1 = some kv.2) then false
  else if cfg.allowlist.any (fun kv => tags_get inst.tags kv.1 ≠ some kv.2) then false
  else true

/-- Translation of `TagFilter.apply` (tag_filter.py). -/
def apply (cfg : TagsConfig) (instances : List DiscoveredInstance) : List DiscoveredInstance :=
  instances.filter (fun inst => _matches cfg inst)

end TagFilter

/-! ## discovery/change_detector.py (legacy tree, imported by the daemon) -/

namespace ChangeDetector

/-- A service key `(service_name, service_port, region)`. -/
abbrev Key := String × ℕ × String

/-- Model of `ServiceState` (change_detector.py): the frozenset of instance ids, the
active count, and the frozenset of `created_at` timestamps. -/
structure ServiceState where
  instance_ids : Finset String
  count : ℕ
  timestamps : Finset (Option ℤ)
deriving DecidableEq

/-- Translation of `ChangeDetector._snapshot`. -/
def _snapshot (svc : DiscoveredService) : ServiceState :=
  { instance_ids := (svc.instances.map (·.instance_id)).toFinset
    count := svc.active_count
    timestamps := (svc.instances.map (·.created_at)).toFinset }

/-- Translation of `ChangeDetector._has_changed`: compares count, then instance-id set, then
timestamp set. -/
def _has_changed (prev curr : ServiceState) : Bool :=
  if prev.count ≠ curr.count then true
  else if prev.instance_ids ≠ curr.instance_ids then true
  else if prev.timestamps ≠ curr.timestamps then true
  else false

/-- Python dict lookup `m[k]` / `k in m` over the association-list model. -/
def lookup {α : Type} (m : List (Key × α)) (k : Key) : Option α :=
  (m.find? (fun kv => kv.1 = k)).map (·.2)

/-- Translation of `ChangeDetector.detect` (change_detector.py).  Input: the stored
`_previous` mapping and `current_services` as association lists (dict items
in order).  Output: `((changed_services, removed_keys), new_previous)` where
`new_previous` is the replacement for `_previous`. -/
def detect (prev : List (Key × ServiceState)) (current : List (Key × DiscoveredService)) :
    (List DiscoveredService × List Key) × List (Key × ServiceState) :=
  let removed := (prev.map (·.1)).filter
    (fun k => ¬ (current.map (·.1)).any (fun k' => k' = k))
  let changed := current.filterMap (fun kv =>
    match lookup prev kv.1 with
    | none => some kv.2
    | some st => if _has_changed st (_snapshot kv.2) then some kv.2 else none)
  ((changed, removed), current.map (fun kv => (kv.1, _snapshot kv.2)))

end ChangeDetector

/-! ## haproxy/reconciler.py — modelled as a trace of Dataplane API calls -/

namespace Reconciler

/-- A server dict as built by the server-data builders; fields the builders
may omit are `Option`s (`none` = key absent from the dict). -/
structure ServerData where
  name : String
  address : String
  port : ℕ
  maintenance : String
  check : String
  cookie : Option String
  weight : Option ℤ
  backup : Option String
deriving DecidableEq, Repr

/-- A backend dict as built by `_ensure_backend`; `extra` holds the
`backend_options[service_name]` pairs merged in by `dict.update`. -/
structure BackendData where
  name : String
  mode : String
  balance : String
  extra : List (String × String)
deriving DecidableEq, Repr

/-- One call against the `DataplaneClient` (dataplane_client.py) issued from
the reconciler, transaction plumbing aside. -/
inductive ApiCall where
  | getBackend (name : String)
  | createBackend (data : BackendData)
  | listServers (backend : String)
  | createServer (backend : String) (data : ServerData)
  | replaceServer (name backend : String) (data : ServerData)
  | deleteServer (name backend : String)
  | deleteBackend (name : String)
deriving DecidableEq, Repr

/-- Whether a call modifies configuration (POST/PUT/DELETE, as opposed to the
GET reads). -/
def ApiCall.isWrite : ApiCall → Bool
  | .getBackend _ => false
  | .listServers _ => false
  | _ => true

/-- The Dataplane API's responses to the reconciler's reads:
`getBackend name = none` models a 404. -/
structure Env where
  getBackend : String → Option BackendData
  listServers : String → List String

/-- Translation of `Reconciler._parse_az_perc`. -/
def _parse_az_perc (raw : Option String) : Option ℤ :=
  match raw with
  | none => none
  | some s =>
    match pyInt s with
    | none => none
    | some val => if 1 ≤ val ∧ val ≤ 99 then some val else none

/-- Translation of `Reconciler._active_server_data` (multi-cloud tree): the base dict with
`cookie = name`, then the AZ-weighting block when both the configured
availability zone and the instance are present. -/
def _active_server_data (cfg : HAProxyConfig) (name address : String) (port : ℕ)
    (inst : Option DiscoveredInstance) : ServerData :=
  let base : ServerData :=
    { name := name, address := address, port := port, maintenance := "disabled"
      check := "enabled", cookie := some name, weight := none, backup := none }
  match cfg.availability_zone, inst with
  | some hz, some i =>
    let az_perc := _parse_az_perc (tags_get i.tags cfg.az_weight_tag)
    let same_az : Bool := i.availability_zone = none ∨ i.availability_zone = some hz
    (match az_perc with
     | some p => { base with weight := some (if same_az then 100 - p else p) }
     | none => if same_az then base else { base with backup := some "enabled" })
  | _, _ => base

/-- Translation of `Reconciler._maintenance_server_data`: no cookie, weight or backup key. -/
def _maintenance_server_data (name : String) : ServerData :=
  { name := name, address := "127.0.0.1", port := 80, maintenance := "enabled"
    check := "disabled", cookie := none, weight := none, backup := none }

/-- The backend dict built by `_ensure_backend` before `create_backend`. -/
def mkBackendData (cfg : HAProxyConfig) (service_name name : String) : BackendData :=
  { name := name, mode := cfg.backend.mode, balance := cfg.backend.balance
    extra := match (cfg.backend_options.find? (fun kv => kv.1 = service_name)).map (·.2) with
      | some extra => extra
      | none => [] }

/-- Translation of `Reconciler._ensure_backend`: GET, then POST only on a 404. -/
def _ensure_backend (cfg : HAProxyConfig) (env : Env) (name service_name : String) :
    List ApiCall :=
  match env.getBackend name with
  | some _ => [.getBackend name]
  | none => [.getBackend name, .createBackend (mkBackendData cfg service_name name)]

/-- Translation of `sorted(service.instances, key=lambda i: i.instance_id)`: Python's sort is
stable, so it agrees with insertion sort by `instance_id ≤`. -/
def sortedInstances (l : List DiscoveredInstance) : List DiscoveredInstance :=
  l.insertionSort (fun a b => a.instance_id ≤ b.instance_id)

/-- One iteration of the slot loop: PUT when the slot name is already among
the backend's servers, POST otherwise. -/
def serverWrite (backend : String) (existingNames : List String) (slot : String)
    (data : ServerData) : ApiCall :=
  if existingNames.any (fun n => n = slot) then .replaceServer slot backend data
  else .createServer backend data

/-- The calls of the `for i, slot_name in enumerate(slot_names)` loop of
`_reconcile_service`. -/
def serverLoopCalls (cfg : HAProxyConfig) (backend : String) (existingNames : List String)
    (active : List DiscoveredInstance) (slot_names : List String) : List ApiCall :=
  slot_names.enum.map (fun ie =>
    let data := match active.get? ie.1 with
      | some inst => _active_server_data cfg ie.2 inst.private_ip inst.effective_port (some inst)
      | none => _maintenance_server_data ie.2
    serverWrite backend existingNames ie.2 data)

/-- The trailing loop of `_reconcile_service`: delete every existing server
whose name is not among the slot names. -/
def deleteCalls (backend : String) (existingNames slot_names : List String) : List ApiCall :=
  existingNames.filterMap (fun n =>
    if slot_names.any (fun s => s = n) then none else some (.deleteServer n backend))

/-- Translation of `Reconciler._reconcile_service`: ensure the backend, compute slots (a
`calculate_slots` exception propagates here, after the ensure-backend calls
but before `list_servers`), list existing servers (the dict keyed by name
de-duplicates them), write every slot, delete the extras. -/
def _reconcile_service (cfg : HAProxyConfig) (env : Env) (service : DiscoveredService) :
    List ApiCall × Option PyError :=
  let backend_name := service.backend_name cfg.backend.namePre cfg.backend.nameSep
  let ensure := _ensure_backend cfg env backend_name service.service_name
  match SlotAllocator.calculate_slots cfg.server_slots service.active_count with
  | .error e => (ensure, some e)
  | .ok total_slots =>
    let slot_names := SlotAllocator.generate_server_names total_slots
    let existingNames := (env.listServers backend_name).dedup
    let active := sortedInstances service.instances
    (ensure ++ [.listServers backend_name]
      ++ serverLoopCalls cfg backend_name existingNames active slot_names
      ++ deleteCalls backend_name existingNames slot_names, none)

/-- Translation of `Reconciler._disable_all_servers`: GET the backend; on a 404 return with
no further calls; otherwise list the servers and PUT every one of them to
maintenance. -/
def _disable_all_servers (env : Env) (backend_name : String) : List ApiCall :=
  match env.getBackend backend_name with
  | none => [.getBackend backend_name]
  | some _ =>
    [.getBackend backend_name, .listServers backend_name]
      ++ (env.listServers backend_name).map
        (fun n => .replaceServer n backend_name (_maintenance_server_data n))

/-- Translation of `Reconciler._backend_name_from_key`. -/
def _backend_name_from_key (cfg : HAProxyConfig) (key : ChangeDetector.Key) : String :=
  cfg.backend.namePre ++ cfg.backend.nameSep ++ key.1 ++ cfg.backend.nameSep
    ++ toString key.2.1 ++ cfg.backend.nameSep ++ key.2.2

/-- Translation of `Reconciler._do_reconcile` as a trace: every changed service in order
(stopping at the first propagating exception), then every removed key. -/
def _do_reconcile (cfg : HAProxyConfig) (env : Env) (changed : List DiscoveredService)
    (removed : List ChangeDetector.Key) : List ApiCall × Option PyError :=
  match changed with
  | [] =>
    ((removed.map (fun k => _disable_all_servers env (_backend_name_from_key cfg k))).flatten,
      none)
  | svc :: rest =>
    match _reconcile_service cfg env svc with
    | (calls, some e) => (calls, some e)
    | (calls, none) =>
      let r := _do_reconcile cfg env rest removed
      (calls ++ r.1, r.2)

end Reconciler

/-! ## haproxy/transaction.py (legacy tree, imported by the reconciler) -/

namespace Transaction

/-- The transaction-lifecycle calls issued by `Transaction`. -/
inductive TxnCall where
  | getConfigurationVersion
  | createTransaction (version : ℤ)
  | commitTransaction (id : String)
  | deleteTransaction (id : String)
deriving DecidableEq, Repr

/-- The `Transaction` object's mutable state after `__enter__`. -/
structure TxnState where
  id : String
  _changed : Bool
deriving DecidableEq, Repr

/-- Method `__enter__` leaves `_changed = False`. -/
def enter (id : String) : TxnState := { id := id, _changed := false }

/-- Translation of `Transaction.mark_changed`. -/
def mark_changed (t : TxnState) : TxnState := { t with _changed := true }

/-- Iterated `mark_changed()` calls, n of them. -/
def applyMarks : ℕ → TxnState → TxnState
  | 0, t => t
  | n + 1, t => applyMarks n (mark_changed t)

/-- Translation of `Transaction._safe_delete`: attempt `delete_transaction`; a
`DataplaneAPIError` from it (`deleteRaises`) is caught and logged, so no
exception escapes (second component). -/
def _safe_delete (t : TxnState) (deleteRaises : Bool) : List TxnCall × Bool :=
  (
    [.deleteTransaction t.id],
    match deleteRaises with
    | true => false
    | false => false)

/-- Translation of `Transaction.__exit__`: on an exception, best-effort delete and re-raise
(the method returns `False`); otherwise commit when `_changed` and delete the
empty transaction when not.  The result is the calls issued and whether the
body's exception propagates out of the `with` block. -/
def txnExit (t : TxnState) (excOccurred : Bool) (deleteRaises : Bool) :
    List TxnCall × Bool :=
  if excOccurred then ((_safe_delete t deleteRaises).1, true)
  else if t._changed then ([.commitTransaction t.id], false)
  else ((_safe_delete t deleteRaises).1, false)

end Transaction

/-! ## haproxy/reconciler.py — the `reconcile` retry loop -/

namespace Retry

/-- The outcome of one `_do_reconcile` attempt: normal return, a
`DataplaneVersionConflict`, or any other exception. -/
inductive AttemptOutcome where
  | ok
  | conflict
  | err
deriving DecidableEq, Repr

/-- What `Reconciler.reconcile` does: return normally after a successful
attempt, re-raise the conflict, propagate another exception, or return
without any attempt when there is nothing to reconcile. -/
inductive RetryResult where
  | success (attempt : ℕ)
  | conflictRaised (attempt : ℕ)
  | errRaised (attempt : ℕ)
  | nothingToDo
deriving DecidableEq, Repr

/-- Constant `MAX_VERSION_RETRIES` (reconciler.py line 17). -/
def MAX_VERSION_RETRIES : ℕ := 3

/-- The `for attempt in range(1, MAX_VERSION_RETRIES + 1)` loop:
`outcomes attempt` is what `_do_reconcile` does on that attempt.  Only
`DataplaneVersionConflict` is caught, and it is re-raised when
`attempt = MAX_VERSION_RETRIES`.  The fuel counts the remaining loop
iterations; the loop always returns or raises before the fuel runs out. -/
def attemptLoop (outcomes : ℕ → AttemptOutcome) : ℕ → ℕ → RetryResult
  | _, 0 => .conflictRaised MAX_VERSION_RETRIES
  | attempt, fuel + 1 =>
    match outcomes attempt with
    | .ok => .success attempt
    | .err => .errRaised attempt
    | .conflict =>
      if attempt < MAX_VERSION_RETRIES then attemptLoop outcomes (attempt + 1) fuel
      else .conflictRaised attempt

/-- Translation of `Reconciler.reconcile`: the empty-input early return, then the retry
loop starting at attempt 1. -/
def reconcile (outcomes : ℕ → AttemptOutcome) (changedEmpty removedEmpty : Bool) :
    RetryResult :=
  if changedEmpty && removedEmpty then .nothingToDo
  else attemptLoop outcomes 1 MAX_VERSION_RETRIES

end Retry

/-! ## daemon.py — `_calculate_sleep` -/

namespace Daemon

/-- Translation of `Daemon._calculate_sleep` (daemon.py): `jitter` stands for the sampled
`random.uniform(0, jitter_seconds)` value. -/
def _calculate_sleep (cfg : PollingConfig) (consecutive_failures : ℕ)
    (elapsed jitter : ℚ) : ℚ :=
  let base : ℚ :=
    if consecutive_failures > 0 then
      min ((cfg.backoff_base_seconds : ℚ) * 2 ^ (consecutive_failures - 1))
        (cfg.max_backoff_seconds : ℚ)
    else (cfg.interval_seconds : ℚ)
  max 0 (base - elapsed + jitter)

end Daemon


/-! ## Concrete sample data and spec-side definitions used by the claim theorems -/

/-- Modelled from the spec's words (claim C5): a current entry is *changed*
iff its key is absent from the stored state (new service) or the stored
snapshot triple (count, instance-id set, created-at set) differs from the
current snapshot.  To be compared with the code's `_has_changed`-based
filter. -/
def ChangeDetector.spec_is_changed (prev : List (ChangeDetector.Key × ChangeDetector.ServiceState))
    (kv : ChangeDetector.Key × DiscoveredService) : Bool :=
  match ChangeDetector.lookup prev kv.1 with
  | none => true
  | some st =>
    ¬(st.count = (ChangeDetector._snapshot kv.2).count ∧
      st.instance_ids = (ChangeDetector._snapshot kv.2).instance_ids ∧
      st.timestamps = (ChangeDetector._snapshot kv.2).timestamps)

/-- A concrete HAProxy configuration with availability zone "1", for the
witnesses. -/
def sampleAzCfg : HAProxyConfig :=
  { backend := ⟨"azure", "-", "roundrobin", "http"⟩
    server_slots := ⟨10, 3 / 2, "linear"⟩
    availability_zone := some "1"
    az_weight_tag := "HAProxy:Instance:AZperc"
    backend_options := [] }

/-- A concrete different-AZ instance carrying the az-weight tag value 10. -/
def sampleAzInst : DiscoveredInstance :=
  { instance_id := "b", name := "vm-b", private_ip := "10.0.0.2", service_name := "app"
    service_port := 8080, region := "eastus", tags := [("HAProxy:Instance:AZperc", "10")]
    instance_port := none, availability_zone := some "2", created_at := none }

/-- A concrete HAProxy configuration (no AZ weighting) for the C1 witness. -/
def sampleCfg : HAProxyConfig :=
  { backend := ⟨"azure", "-", "roundrobin", "http"⟩
    server_slots := ⟨10, 3 / 2, "linear"⟩
    availability_zone := none
    az_weight_tag := "HAProxy:Instance:AZperc"
    backend_options := [] }

/-- A concrete single-instance service for the C1 witness. -/
def sampleInstA : DiscoveredInstance :=
  { instance_id := "a", name := "vm-a", private_ip := "10.0.0.1", service_name := "app"
    service_port := 8080, region := "eastus", tags := [], instance_port := none
    availability_zone := none, created_at := none }

/-- The C1 witness's service: one active instance. -/
def sampleSvc : DiscoveredService :=
  { service_name := "app", service_port := 8080, region := "eastus"
    instances := [sampleInstA] }

/-- The full application configuration around a given slot configuration, as
accepted by `_validate`, for the C6 counterexample and claim C10. -/
def mkAppConfig (ss : ServerSlotsConfig) : AppConfig :=
  { azure := some ⟨"sub-id"⟩
    aws := none
    haproxy :=
      { backend := ⟨"azure", "-", "roundrobin", "http"⟩
        server_slots := ss
        availability_zone := none
        az_weight_tag := "HAProxy:Instance:AZperc"
        backend_options := [] }
    polling := ⟨30, 5, 300, 5⟩ }

/-! ## Helper lemmas -/

theorem Transaction.applyMarks_true (n : ℕ) (i : String) :
    Transaction.applyMarks n { id := i, _changed := true } = { id := i, _changed := true } := by
  induction n with
  | zero => rfl
  | succ n ih => simpa [Transaction.applyMarks, Transaction.mark_changed] using ih

theorem Transaction.applyMarks_enter (n : ℕ) (i : String) :
    Transaction.applyMarks n (Transaction.enter i) = { id := i, _changed := decide (0 < n) } := by
  cases n with
  | zero => rfl
  | succ n =>
    simp [Transaction.applyMarks, Transaction.enter, Transaction.mark_changed,
      Transaction.applyMarks_true]

/-! ## Claim theorems -/

/-- Claim C9: for every elapsed time, failure count and sampled jitter value
`j ∈ [0, jitter_seconds]`, the daemon's computed sleep equals
`max 0 (base - elapsed + j)` with `base = interval_seconds` when there are no
consecutive failures and `base = min (backoff_base * 2^(failures-1),
max_backoff)` otherwise. -/
theorem daemon_sleep_formula (cfg : PollingConfig) (failures : ℕ) (elapsed j : ℚ)
    (h0 : 0 ≤ j) (h1 : j ≤ (cfg.jitter_seconds : ℚ)) :
    Daemon._calculate_sleep cfg failures elapsed j =
      max 0
        ((if failures = 0 then (cfg.interval_seconds : ℚ)
          else min ((cfg.backoff_base_seconds : ℚ) * 2 ^ (failures - 1))
            (cfg.max_backoff_seconds : ℚ)) - elapsed + j) := by
  unfold Daemon._calculate_sleep
  rcases Nat.eq_zero_or_pos failures with h | h
  · simp [h]
  · simp [h, Nat.pos_iff_ne_zero.mp h]

/-- Closed instance of `daemon_sleep_formula` discharging its hypotheses at a
concrete input. -/
theorem daemon_sleep_formula_witness :
    (0 : ℚ) ≤ 2 ∧ (2 : ℚ) ≤ ((5 : ℤ) : ℚ) ∧
      Daemon._calculate_sleep ⟨30, 5, 300, 5⟩ 0 10 2 =
        max 0 ((if (0 : ℕ) = 0 then ((30 : ℤ) : ℚ)
          else min (((5 : ℤ) : ℚ) * 2 ^ (0 - 1)) ((300 : ℤ) : ℚ)) - 10 + 2) :=
  ⟨by norm_num, by norm_num,
    daemon_sleep_formula ⟨30, 5, 300, 5⟩ 0 10 2 (by norm_num) (by norm_num)⟩

theorem TagFilter.matches_eq (cfg : TagsConfig) (inst : DiscoveredInstance) :
    TagFilter._matches cfg inst =
      (!(cfg.denylist.any fun kv => tags_get inst.tags kv.1 = some kv.2) &&
        !(cfg.allowlist.any fun kv => tags_get inst.tags kv.1 ≠ some kv.2)) := by
  unfold TagFilter._matches
  by_cases h1 : (cfg.denylist.any fun kv => tags_get inst.tags kv.1 = some kv.2) = true
  · simp [h1]
  · by_cases h2 : (cfg.allowlist.any fun kv => tags_get inst.tags kv.1 ≠ some kv.2) = true
    · simp [h1, h2]
    · simp [h1, h2]

theorem TagFilter.matches_iff (cfg : TagsConfig) (inst : DiscoveredInstance) :
    TagFilter._matches cfg inst = true ↔
      (∀ kv ∈ cfg.denylist, tags_get inst.tags kv.1 ≠ some kv.2) ∧
      (∀ kv ∈ cfg.allowlist, tags_get inst.tags kv.1 = some kv.2) := by
  simp [TagFilter.matches_eq, List.any_eq_false, not_not]

/-- Claim C8: `TagFilter` keeps an instance iff no denylist entry matches and
every allowlist entry matches; a denylist hit excludes the instance even when
every allowlist entry matches; empty allowlist and denylist impose no
constraint. -/
theorem tag_filter_laws (cfg : TagsConfig) (instances : List DiscoveredInstance)
    (inst : DiscoveredInstance) :
    (inst ∈ TagFilter.apply cfg instances ↔
      inst ∈ instances ∧
        (∀ kv ∈ cfg.denylist, tags_get inst.tags kv.1 ≠ some kv.2) ∧
        (∀ kv ∈ cfg.allowlist, tags_get inst.tags kv.1 = some kv.2)) ∧
    ((∃ kv ∈ cfg.denylist, tags_get inst.tags kv.1 = some kv.2) →
      TagFilter._matches cfg inst = false) ∧
    TagFilter._matches { allowlist := [], denylist := [] } inst = true := by
  refine ⟨?_, ?_, by simp [TagFilter._matches]⟩
  · rw [TagFilter.apply, List.mem_filter, TagFilter.matches_iff]
  · rintro ⟨kv, hkv, heq⟩
    rw [TagFilter.matches_eq]
    have : (cfg.denylist.any fun kv => tags_get inst.tags kv.1 = some kv.2) = true := by
      rw [List.any_eq_true]
      exact ⟨kv, hkv, by simp [heq]⟩
    simp [this]

/-- Claim C3: in the transaction scope, `commit_transaction` is called iff
`mark_changed` was called at least once and the scope exits without an
exception; an exceptional exit attempts `delete_transaction` (whose own
failure is suppressed by `_safe_delete`) and propagates the original
exception; and a transaction with no `mark_changed` calls is deleted, not
committed. -/
theorem transaction_discipline (i : String) (marks : ℕ) (exc deleteRaises : Bool) :
    ((Transaction.TxnCall.commitTransaction i ∈
        (Transaction.txnExit (Transaction.applyMarks marks (Transaction.enter i))
          exc deleteRaises).1) ↔ (0 < marks ∧ exc = false)) ∧
    (exc = true →
      Transaction.TxnCall.deleteTransaction i ∈
          (Transaction.txnExit (Transaction.applyMarks marks (Transaction.enter i))
            exc deleteRaises).1 ∧
        (Transaction.txnExit (Transaction.applyMarks marks (Transaction.enter i))
          exc deleteRaises).2 = true) ∧
    ((Transaction._safe_delete (Transaction.applyMarks marks (Transaction.enter i))
        deleteRaises).2 = false) ∧
    ((marks = 0 ∧ exc = false) →
      Transaction.txnExit (Transaction.applyMarks marks (Transaction.enter i))
          exc deleteRaises =
        ([Transaction.TxnCall.deleteTransaction i], false)) := by
  rw [Transaction.applyMarks_enter]
  refine ⟨?_, ?_, ?_, ?_⟩
  · cases exc with
    | true => simp [Transaction.txnExit, Transaction._safe_delete]
    | false =>
      cases Nat.eq_zero_or_pos marks with
      | inl h => simp [h, Transaction.txnExit, Transaction._safe_delete]
      | inr h => simp [h, Nat.pos_iff_ne_zero.mp h, Transaction.txnExit]
  · intro h
    simp [h, Transaction.txnExit, Transaction._safe_delete]
  · cases deleteRaises <;> simp [Transaction._safe_delete]
  · rintro ⟨hm, he⟩
    simp [hm, he, Transaction.txnExit, Transaction._safe_delete]

/-- Claim C4: the `reconcile` retry loop retries only on
`DataplaneVersionConflict`, up to 3 attempts total: three consecutive
conflicts re-raise the conflict; a success on any of the first three attempts
(after at most two conflicts) returns normally; any other exception
propagates immediately. -/
theorem version_conflict_retry (f : ℕ → Retry.AttemptOutcome) (ce re : Bool)
    (hne : (ce && re) = false) :
    ((f 1 = .conflict ∧ f 2 = .conflict ∧ f 3 = .conflict) →
      Retry.reconcile f ce re = .conflictRaised 3) ∧
    (∀ k, 1 ≤ k → k ≤ 3 → f k = .ok → (∀ j, 1 ≤ j → j < k → f j = .conflict) →
      Retry.reconcile f ce re = .success k) ∧
    (∀ k, 1 ≤ k → k ≤ 3 → f k = .err → (∀ j, 1 ≤ j → j < k → f j = .conflict) →
      Retry.reconcile f ce re = .errRaised k) := by
  have hrec : Retry.reconcile f ce re = Retry.attemptLoop f 1 Retry.MAX_VERSION_RETRIES := by
    simp [Retry.reconcile, hne]
  refine ⟨?_, ?_, ?_⟩
  · rintro ⟨h1, h2, h3⟩
    rw [hrec]
    simp [Retry.attemptLoop, Retry.MAX_VERSION_RETRIES, h1, h2, h3]
  · intro k hk1 hk3 hok hconf
    rw [hrec]
    interval_cases k
    · simp [Retry.attemptLoop, Retry.MAX_VERSION_RETRIES, hok]
    · simp [Retry.attemptLoop, Retry.MAX_VERSION_RETRIES, hok,
        hconf 1 le_rfl one_lt_two]
    · simp [Retry.attemptLoop, Retry.MAX_VERSION_RETRIES, hok,
        hconf 1 le_rfl (by norm_num), hconf 2 one_le_two (by norm_num)]
  · intro k hk1 hk3 herr hconf
    rw [hrec]
    interval_cases k
    · simp [Retry.attemptLoop, Retry.MAX_VERSION_RETRIES, herr]
    · simp [Retry.attemptLoop, Retry.MAX_VERSION_RETRIES, herr,
        hconf 1 le_rfl one_lt_two]
    · simp [Retry.attemptLoop, Retry.MAX_VERSION_RETRIES, herr,
        hconf 1 le_rfl (by norm_num), hconf 2 one_le_two (by norm_num)]

/-- Closed instance of `version_conflict_retry`: three consecutive conflicts
raise the conflict on attempt 3. -/
theorem version_conflict_retry_witness :
    ((false && false) = false) ∧
      Retry.reconcile (fun _ => Retry.AttemptOutcome.conflict) false false =
        .conflictRaised 3 :=
  ⟨rfl,
    (version_conflict_retry (fun _ => Retry.AttemptOutcome.conflict) false false rfl).1
      ⟨rfl, rfl, rfl⟩⟩

/-! ## Claim C5 — ChangeDetector.detect -/


theorem ChangeDetector._has_changed_eq (st c : ChangeDetector.ServiceState) :
    ChangeDetector._has_changed st c =
      decide (¬(st.count = c.count ∧ st.instance_ids = c.instance_ids ∧
        st.timestamps = c.timestamps)) := by
  unfold ChangeDetector._has_changed
  by_cases h1 : st.count = c.count <;> by_cases h2 : st.instance_ids = c.instance_ids <;>
    by_cases h3 : st.timestamps = c.timestamps <;> simp [h1, h2, h3]

theorem List.filterMap_guard {α β : Type} (p : α → Bool) (g : α → β) (l : List α) :
    l.filterMap (fun x => if p x then some (g x) else none) = (l.filter p).map g := by
  induction l with
  | nil => rfl
  | cons a l ih => by_cases h : p a <;> simp [h, ih]

/-- Claim C5: `detect` returns as removed exactly the keys stored previously
but absent now; returns as changed exactly the new keys plus those whose
snapshot triple differs, in current order; and replaces the stored state by
the snapshots of all current services. -/
theorem change_detector_detect (prev : List (ChangeDetector.Key × ChangeDetector.ServiceState))
    (current : List (ChangeDetector.Key × DiscoveredService)) :
    (∀ k, k ∈ (ChangeDetector.detect prev current).1.2 ↔
      (k ∈ prev.map Prod.fst ∧ k ∉ current.map Prod.fst)) ∧
    ((ChangeDetector.detect prev current).1.1 =
      (current.filter (ChangeDetector.spec_is_changed prev)).map Prod.snd) ∧
    ((ChangeDetector.detect prev current).2 =
      current.map (fun kv => (kv.1, ChangeDetector._snapshot kv.2))) := by
  refine ⟨?_, ?_, rfl⟩
  · intro k
    show k ∈ (prev.map (fun kv => kv.1)).filter _ ↔ _
    rw [List.mem_filter]
    have hany : ((current.map (fun kv => kv.1)).any (fun k' => k' = k) = true) ↔
        k ∈ current.map Prod.fst := by
      rw [List.any_eq_true]
      constructor
      · rintro ⟨x, hx, he⟩
        simp only [decide_eq_true_eq] at he
        simpa [he] using hx
      · intro h
        exact ⟨k, by simpa using h, by simp⟩
    constructor
    · rintro ⟨hk, hp⟩
      rw [decide_eq_true_eq] at hp
      exact ⟨hk, fun hmem => hp (hany.mpr hmem)⟩
    · rintro ⟨hk, hn⟩
      exact ⟨hk, by rw [decide_eq_true_eq]; exact fun h => hn (hany.mp h)⟩
  · show current.filterMap _ = _
    rw [← List.filterMap_guard (ChangeDetector.spec_is_changed prev) Prod.snd current]
    congr 1
    funext kv
    unfold ChangeDetector.spec_is_changed
    cases h : ChangeDetector.lookup prev kv.1 with
    | none => simp [h]
    | some st => simp [h, ChangeDetector._has_changed_eq]

/-! ## Claim C2 — the Reconciler never deletes a backend -/

theorem Reconciler.serverWrite_cases (b : String) (ex : List String) (s : String)
    (d : Reconciler.ServerData) :
    Reconciler.serverWrite b ex s d = .replaceServer s b d ∨
      Reconciler.serverWrite b ex s d = .createServer b d := by
  unfold Reconciler.serverWrite
  split
  · exact Or.inl rfl
  · exact Or.inr rfl

theorem Reconciler.deleteBackend_not_mem_reconcile_service (cfg : HAProxyConfig)
    (env : Reconciler.Env) (svc : DiscoveredService) (b : String) :
    Reconciler.ApiCall.deleteBackend b ∉ (Reconciler._reconcile_service cfg env svc).1 := by
  have hens : ∀ bn sn, Reconciler.ApiCall.deleteBackend b ∉
      Reconciler._ensure_backend cfg env bn sn := by
    intro bn sn
    unfold Reconciler._ensure_backend
    cases env.getBackend bn <;> simp
  unfold Reconciler._reconcile_service
  cases h : SlotAllocator.calculate_slots cfg.server_slots svc.active_count with
  | error e => exact hens _ _
  | ok n =>
    simp only [List.append_assoc, List.mem_append]
    rintro (hc | hc | hc | hc)
    · exact hens _ _ hc
    · simp at hc
    · simp only [Reconciler.serverLoopCalls, List.mem_map] at hc
      obtain ⟨ie, _, hc⟩ := hc
      rcases Reconciler.serverWrite_cases _ _ _ _ with hw | hw <;> rw [hw] at hc <;>
        exact absurd hc (by simp)
    · simp only [Reconciler.deleteCalls, List.mem_filterMap] at hc
      obtain ⟨n', _, hc⟩ := hc
      by_cases hin : (SlotAllocator.generate_server_names n).any (fun s => s = n') <;>
        simp [hin] at hc

theorem Reconciler.deleteBackend_not_mem_disable (env : Reconciler.Env) (bn b : String) :
    Reconciler.ApiCall.deleteBackend b ∉ Reconciler._disable_all_servers env bn := by
  unfold Reconciler._disable_all_servers
  cases env.getBackend bn <;> simp

/-- Claim C2: for every input, the reconciler trace contains no backend
DELETE; handling a removed key only issues maintenance `PUT`s for the servers
currently listed in that backend, and when the backend exists every server
the API lists does receive its maintenance `PUT`; when the backend does not
exist the removed key produces the 404 `GET` and no write at all. -/
theorem backend_never_deleted (cfg : HAProxyConfig) (env : Reconciler.Env)
    (changed : List DiscoveredService) (removed : List ChangeDetector.Key) (b : String)
    (k : ChangeDetector.Key) :
    (Reconciler.ApiCall.deleteBackend b ∉
      (Reconciler._do_reconcile cfg env changed removed).1) ∧
    (∀ c ∈ Reconciler._disable_all_servers env (Reconciler._backend_name_from_key cfg k),
      c.isWrite = true →
        ∃ n ∈ env.listServers (Reconciler._backend_name_from_key cfg k),
          c = .replaceServer n (Reconciler._backend_name_from_key cfg k)
            (Reconciler._maintenance_server_data n)) ∧
    (∀ bd, env.getBackend (Reconciler._backend_name_from_key cfg k) = some bd →
      ∀ n ∈ env.listServers (Reconciler._backend_name_from_key cfg k),
        Reconciler.ApiCall.replaceServer n (Reconciler._backend_name_from_key cfg k)
            (Reconciler._maintenance_server_data n) ∈
          Reconciler._disable_all_servers env (Reconciler._backend_name_from_key cfg k)) ∧
    (env.getBackend (Reconciler._backend_name_from_key cfg k) = none →
      Reconciler._disable_all_servers env (Reconciler._backend_name_from_key cfg k) =
        [.getBackend (Reconciler._backend_name_from_key cfg k)]) := by
  refine ⟨?_, ?_, ?_, ?_⟩
  · induction changed with
    | nil =>
      simp only [Reconciler._do_reconcile, List.mem_flatten]
      rintro ⟨l, hl, hb⟩
      simp only [List.mem_map] at hl
      obtain ⟨k', _, rfl⟩ := hl
      exact Reconciler.deleteBackend_not_mem_disable env _ b hb
    | cons svc rest ih =>
      rcases h : Reconciler._reconcile_service cfg env svc with ⟨calls, err⟩
      have hsvc := Reconciler.deleteBackend_not_mem_reconcile_service cfg env svc b
      rw [h] at hsvc
      cases err with
      | some e => simpa [Reconciler._do_reconcile, h] using hsvc
      | none =>
        simp only [Reconciler._do_reconcile, h, List.mem_append]
        rintro (hc | hc)
        · exact hsvc hc
        · exact ih hc
  · intro c hc hw
    unfold Reconciler._disable_all_servers at hc
    cases hg : env.getBackend (Reconciler._backend_name_from_key cfg k) with
    | none =>
      rw [hg] at hc
      simp at hc
      simp [hc, Reconciler.ApiCall.isWrite] at hw
    | some bd =>
      rw [hg] at hc
      simp only [List.cons_append, List.nil_append, List.mem_cons, List.mem_map] at hc
      rcases hc with rfl | rfl | ⟨n, hn, rfl⟩
      · simp [Reconciler.ApiCall.isWrite] at hw
      · simp [Reconciler.ApiCall.isWrite] at hw
      · exact ⟨n, hn, rfl⟩
  · intro bd hg n hn
    unfold Reconciler._disable_all_servers
    rw [hg]
    simp only [List.cons_append, List.nil_append, List.mem_cons, List.mem_map]
    exact Or.inr (Or.inr ⟨n, hn, rfl⟩)
  · intro hg
    unfold Reconciler._disable_all_servers
    rw [hg]

/-! ## Claim C7 — AZ-aware weighting of active servers -/

/-- Claim C7: with an availability zone configured, an active server whose
instance carries an az-weight tag parsing to `p ∈ 1..99` gets
`weight = 100 - p` when same-AZ (no AZ on the instance counts as same-AZ)
and `weight = p` otherwise, with no backup field; with no usable tag value,
`backup = enabled` exactly when the instance is in a different AZ; same-AZ
with no usable tag sets neither field; maintenance data never carries weight
or backup. -/
theorem az_weighting (cfg : HAProxyConfig) (hz : String)
    (hcfg : cfg.availability_zone = some hz) (nm addr : String) (port : ℕ)
    (inst : DiscoveredInstance) :
    (∀ raw p, tags_get inst.tags cfg.az_weight_tag = some raw → pyInt raw = some p →
      1 ≤ p → p ≤ 99 →
      (Reconciler._active_server_data cfg nm addr port (some inst)).weight =
          some (if inst.availability_zone = none ∨ inst.availability_zone = some hz
            then 100 - p else p) ∧
        (Reconciler._active_server_data cfg nm addr port (some inst)).backup = none) ∧
    (Reconciler._parse_az_perc (tags_get inst.tags cfg.az_weight_tag) = none →
      ¬(inst.availability_zone = none ∨ inst.availability_zone = some hz) →
      (Reconciler._active_server_data cfg nm addr port (some inst)).backup = some "enabled" ∧
        (Reconciler._active_server_data cfg nm addr port (some inst)).weight = none) ∧
    (Reconciler._parse_az_perc (tags_get inst.tags cfg.az_weight_tag) = none →
      (inst.availability_zone = none ∨ inst.availability_zone = some hz) →
      (Reconciler._active_server_data cfg nm addr port (some inst)).weight = none ∧
        (Reconciler._active_server_data cfg nm addr port (some inst)).backup = none) ∧
    (∀ s, (Reconciler._maintenance_server_data s).weight = none ∧
      (Reconciler._maintenance_server_data s).backup = none ∧
      (Reconciler._maintenance_server_data s).cookie = none) := by
  refine ⟨?_, ?_, ?_, fun s => ⟨rfl, rfl, rfl⟩⟩
  · intro raw p htag hpy h1 h99
    have hperc : Reconciler._parse_az_perc (tags_get inst.tags cfg.az_weight_tag) = some p := by
      rw [htag]
      unfold Reconciler._parse_az_perc
      simp [hpy, h1, h99]
    by_cases hsame : inst.availability_zone = none ∨ inst.availability_zone = some hz <;>
      constructor <;>
        simp [Reconciler._active_server_data, hcfg, hperc, hsame]
  · intro hperc hsame
    constructor <;> simp [Reconciler._active_server_data, hcfg, hperc, hsame]
  · intro hperc hsame
    constructor <;> simp [Reconciler._active_server_data, hcfg, hperc, hsame]


/-- Closed instance of `az_weighting`: the different-AZ instance with tag
value 10 gets `weight = 10`. -/
theorem az_weighting_witness :
    sampleAzCfg.availability_zone = some "1" ∧
      (Reconciler._active_server_data sampleAzCfg "srv1" "10.0.0.2" 8080
        (some sampleAzInst)).weight = some 10 := by
  refine ⟨rfl, ?_⟩
  have h := (az_weighting sampleAzCfg "1" rfl "srv1" "10.0.0.2" 8080 sampleAzInst).1
      "10" 10 (by decide) (by decide) (by decide) (by decide)
  rw [h.1, if_neg (by simp [sampleAzInst])]

/-! ## Claim C1 — slot assignment within a reconciled service -/

theorem List.any_eq_self_iff_mem {α : Type} [DecidableEq α] (l : List α) (a : α) :
    (l.any fun x => x = a) = true ↔ a ∈ l := by
  rw [List.any_eq_true]
  constructor
  · rintro ⟨x, hx, he⟩
    simp only [decide_eq_true_eq] at he
    simpa [he] using hx
  · intro h
    exact ⟨a, h, by simp⟩

theorem Reconciler.active_server_data_fields (cfg : HAProxyConfig) (nm addr : String)
    (p : ℕ) (i : DiscoveredInstance) :
    (Reconciler._active_server_data cfg nm addr p (some i)).name = nm ∧
    (Reconciler._active_server_data cfg nm addr p (some i)).address = addr ∧
    (Reconciler._active_server_data cfg nm addr p (some i)).port = p ∧
    (Reconciler._active_server_data cfg nm addr p (some i)).maintenance = "disabled" ∧
    (Reconciler._active_server_data cfg nm addr p (some i)).check = "enabled" ∧
    (Reconciler._active_server_data cfg nm addr p (some i)).cookie = some nm := by
  unfold Reconciler._active_server_data
  rcases h : cfg.availability_zone with _ | hz
  · exact ⟨rfl, rfl, rfl, rfl, rfl, rfl⟩
  · cases hp : Reconciler._parse_az_perc (tags_get i.tags cfg.az_weight_tag) with
    | some q => simp [hp]
    | none =>
      by_cases hsa : i.availability_zone = none ∨ i.availability_zone = some hz <;>
        simp [hp, hsa]

/-- Claim C1: given `calculate_slots` returns `N`, `_reconcile_service`
issues exactly the ensure-backend calls, the server listing, one write per
slot `srv1..srvN` and the deletions of the extra servers; the instances
sorted ascending by `instance_id` fill the slots in order with their active
server data; slots beyond the active count get maintenance data (no cookie,
weight or backup); a slot already among the backend's servers is replaced
(PUT) and otherwise created (POST); and exactly the existing servers not
named `srv1..srvN` are deleted. -/
theorem reconciler_slot_assignment (cfg : HAProxyConfig) (env : Reconciler.Env)
    (svc : DiscoveredService) (N : ℤ) (bname : String) (slots ex : List String)
    (act : List DiscoveredInstance) (loop : List Reconciler.ApiCall)
    (hN : SlotAllocator.calculate_slots cfg.server_slots svc.active_count = .ok N)
    (hb : bname = svc.backend_name cfg.backend.namePre cfg.backend.nameSep)
    (hs : slots = SlotAllocator.generate_server_names N)
    (hex : ex = (env.listServers bname).dedup)
    (hact : act = Reconciler.sortedInstances svc.instances)
    (hloop : loop = Reconciler.serverLoopCalls cfg bname ex act slots) :
    (Reconciler._reconcile_service cfg env svc =
      (Reconciler._ensure_backend cfg env bname svc.service_name
          ++ [.listServers bname] ++ loop ++ Reconciler.deleteCalls bname ex slots,
        none)) ∧
    (List.Sorted (fun a b : DiscoveredInstance => a.instance_id ≤ b.instance_id) act ∧
      act.Perm svc.instances) ∧
    (∀ k : ℕ, 1 ≤ k → k ≤ N.toNat → slots[k - 1]? = some ("srv" ++ toString k)) ∧
    (∀ k : ℕ, ∀ i : DiscoveredInstance, 1 ≤ k → k ≤ N.toNat → act[k - 1]? = some i →
      loop[k - 1]? = some (Reconciler.serverWrite bname ex ("srv" ++ toString k)
        (Reconciler._active_server_data cfg ("srv" ++ toString k) i.private_ip
          i.effective_port (some i)))) ∧
    (∀ k : ℕ, act.length < k → k ≤ N.toNat →
      loop[k - 1]? = some (Reconciler.serverWrite bname ex ("srv" ++ toString k)
        (Reconciler._maintenance_server_data ("srv" ++ toString k)))) ∧
    (∀ s d, (s ∈ env.listServers bname →
        Reconciler.serverWrite bname ex s d = .replaceServer s bname d) ∧
      (s ∉ env.listServers bname →
        Reconciler.serverWrite bname ex s d = .createServer bname d)) ∧
    (∀ nm2 addr2 p2 i2,
      (Reconciler._active_server_data cfg nm2 addr2 p2 (some i2)).name = nm2 ∧
      (Reconciler._active_server_data cfg nm2 addr2 p2 (some i2)).address = addr2 ∧
      (Reconciler._active_server_data cfg nm2 addr2 p2 (some i2)).port = p2 ∧
      (Reconciler._active_server_data cfg nm2 addr2 p2 (some i2)).maintenance = "disabled" ∧
      (Reconciler._active_server_data cfg nm2 addr2 p2 (some i2)).check = "enabled" ∧
      (Reconciler._active_server_data cfg nm2 addr2 p2 (some i2)).cookie = some nm2) ∧
    (∀ nm2, Reconciler._maintenance_server_data nm2 =
      { name := nm2, address := "127.0.0.1", port := 80, maintenance := "enabled"
        check := "disabled", cookie := none, weight := none, backup := none }) ∧
    (∀ n, Reconciler.ApiCall.deleteServer n bname ∈ Reconciler.deleteCalls bname ex slots ↔
      (n ∈ env.listServers bname ∧ n ∉ slots)) := by
  have hslot : ∀ k : ℕ, 1 ≤ k → k ≤ N.toNat → slots[k - 1]? = some ("srv" ++ toString k) := by
    intro k h1 h2
    rw [hs]
    unfold SlotAllocator.generate_server_names
    rw [List.getElem?_map, List.getElem?_range (by omega)]
    simp only [Option.map_some']
    rw [Nat.sub_add_cancel h1]
  refine ⟨?_, ⟨?_, ?_⟩, hslot, ?_, ?_, ?_, ?_, fun nm2 => rfl, ?_⟩
  · subst hb hs hex hact hloop
    simp only [Reconciler._reconcile_service, hN]
  · subst hact
    unfold Reconciler.sortedInstances
    haveI : IsTotal DiscoveredInstance
        (fun a b : DiscoveredInstance => a.instance_id ≤ b.instance_id) :=
      ⟨fun a b => le_total _ _⟩
    haveI : IsTrans DiscoveredInstance
        (fun a b : DiscoveredInstance => a.instance_id ≤ b.instance_id) :=
      ⟨fun _ _ _ => le_trans⟩
    exact List.sorted_insertionSort _ _
  · subst hact
    exact List.perm_insertionSort _ _
  · intro k i h1 h2 hik
    rw [hloop]
    unfold Reconciler.serverLoopCalls
    rw [List.getElem?_map, List.getElem?_enum, hslot k h1 h2]
    simp [hik]
  · intro k hlen h2
    rw [hloop]
    unfold Reconciler.serverLoopCalls
    rw [List.getElem?_map, List.getElem?_enum, hslot k (by omega) h2]
    have hnone : act[k - 1]? = none := by
      rw [List.getElem?_eq_none]
      omega
    simp [hnone]
  · intro s d
    constructor
    · intro hmem
      unfold Reconciler.serverWrite
      rw [if_pos]
      rw [List.any_eq_self_iff_mem, hex, List.mem_dedup]
      exact hmem
    · intro hmem
      unfold Reconciler.serverWrite
      rw [if_neg]
      rw [List.any_eq_self_iff_mem, hex, List.mem_dedup]
      exact hmem
  · intro nm2 addr2 p2 i2
    exact Reconciler.active_server_data_fields cfg nm2 addr2 p2 i2
  · intro n
    unfold Reconciler.deleteCalls
    rw [List.mem_filterMap]
    constructor
    · rintro ⟨a, ha, hfa⟩
      by_cases hany : (slots.any fun s => s = a) = true
      · rw [if_pos hany] at hfa
        exact absurd hfa (by simp)
      · rw [if_neg hany] at hfa
        have : a = n := by
          have := Option.some.inj hfa
          exact (Reconciler.ApiCall.deleteServer.inj this).1
        subst this
        rw [List.any_eq_self_iff_mem] at hany
        rw [hex, List.mem_dedup] at ha
        exact ⟨ha, hany⟩
    · rintro ⟨hmem, hnot⟩
      refine ⟨n, ?_, ?_⟩
      · rw [hex, List.mem_dedup]
        exact hmem
      · rw [if_neg]
        rw [List.any_eq_self_iff_mem]
        exact hnot


/-- Closed instance of `reconciler_slot_assignment`: with one active instance
and ten slots, the loop's first write is the active data of that instance for
`srv1`, and its second write is maintenance data for `srv2`. -/
theorem reconciler_slot_assignment_witness :
    SlotAllocator.calculate_slots sampleCfg.server_slots sampleSvc.active_count = .ok 10 ∧
      (Reconciler.serverLoopCalls sampleCfg "azure-app-8080-eastus" []
          (Reconciler.sortedInstances sampleSvc.instances)
          (SlotAllocator.generate_server_names 10))[0]? =
        some (Reconciler.serverWrite "azure-app-8080-eastus" [] "srv1"
          (Reconciler._active_server_data sampleCfg "srv1" "10.0.0.1" 8080
            (some sampleInstA))) ∧
      (Reconciler.serverLoopCalls sampleCfg "azure-app-8080-eastus" []
          (Reconciler.sortedInstances sampleSvc.instances)
          (SlotAllocator.generate_server_names 10))[1]? =
        some (Reconciler.serverWrite "azure-app-8080-eastus" [] "srv2"
          (Reconciler._maintenance_server_data "srv2")) := by
  have h := reconciler_slot_assignment sampleCfg
    { getBackend := fun _ => none, listServers := fun _ => [] } sampleSvc 10
    "azure-app-8080-eastus" (SlotAllocator.generate_server_names 10) []
    (Reconciler.sortedInstances sampleSvc.instances)
    (Reconciler.serverLoopCalls sampleCfg "azure-app-8080-eastus" []
      (Reconciler.sortedInstances sampleSvc.instances)
      (SlotAllocator.generate_server_names 10))
    rfl rfl rfl rfl rfl rfl
  refine ⟨rfl, ?_, ?_⟩
  · have h3 := h.2.2.2.1 1 sampleInstA (by norm_num) (by norm_num) rfl
    simpa using h3
  · have h4 := h.2.2.2.2.1 2 (by norm_num [Reconciler.sortedInstances, sampleSvc]) (by norm_num)
    simpa using h4

/-! ## Claims C6 and C10 — slot-count growth and its failure modes -/

namespace SlotAllocator

theorem ceilLogRatio_eq_natCast_iff (a b : ℕ) (g : ℚ) (h1 : 1 < g) (hb : 0 < b)
    (hab : (b : ℚ) < (a : ℚ)) (k : ℕ) :
    ceilLogRatio a b g = (k : ℤ) ↔
      (((a : ℚ) ≤ (b : ℚ) * g ^ k) ∧ ∀ m < k, ¬((a : ℚ) ≤ (b : ℚ) * g ^ m)) := by
  unfold ceilLogRatio
  rw [dif_pos ⟨h1, hab, hb⟩, Nat.cast_inj]
  exact Nat.find_eq_iff _

theorem ceilLogRatio_nonneg (a b : ℕ) (g : ℚ) (h1 : 1 < g) (hb : 0 < b)
    (hab : (b : ℚ) < (a : ℚ)) : 0 ≤ ceilLogRatio a b g := by
  unfold ceilLogRatio
  rw [dif_pos ⟨h1, hab, hb⟩]
  exact Int.natCast_nonneg _

theorem ceilLogRatio_spec (a b : ℕ) (g : ℚ) (h1 : 1 < g) (hb : 0 < b)
    (hab : (b : ℚ) < (a : ℚ)) :
    ceilLogRatio a b g = ((ceilLogRatio a b g).toNat : ℤ) ∧
      ((a : ℚ) ≤ (b : ℚ) * g ^ (ceilLogRatio a b g).toNat) := by
  have h0 := ceilLogRatio_nonneg a b g h1 hb hab
  have heq : ceilLogRatio a b g = ((ceilLogRatio a b g).toNat : ℤ) :=
    (Int.toNat_of_nonneg h0).symm
  exact ⟨heq, ((ceilLogRatio_eq_natCast_iff a b g h1 hb hab _).mp heq).1⟩

theorem ceilLogRatio_mono (b : ℕ) (g : ℚ) (h1 : 1 < g) (hb : 0 < b) (a a' : ℕ)
    (hab : (b : ℚ) < (a : ℚ)) (ha : a ≤ a') :
    ceilLogRatio a b g ≤ ceilLogRatio a' b g := by
  have haq : (a : ℚ) ≤ (a' : ℚ) := by exact_mod_cast ha
  have hab' : (b : ℚ) < (a' : ℚ) := lt_of_lt_of_le hab haq
  unfold ceilLogRatio
  rw [dif_pos ⟨h1, hab, hb⟩, dif_pos ⟨h1, hab', hb⟩]
  exact_mod_cast Nat.find_mono (fun n hn => le_trans haq hn)

theorem exp_slots_ge (b : ℕ) (g : ℚ) (a : ℕ) (h1 : 1 < g) (hb : 0 < b) (hab : b < a) :
    max (a : ℤ) (b : ℤ) ≤ exp_slots b g a := by
  have hcast : (b : ℚ) < (a : ℚ) := by exact_mod_cast hab
  obtain ⟨heq, -⟩ := ceilLogRatio_spec a b g h1 hb hcast
  unfold exp_slots
  rw [max_le_iff]
  refine ⟨le_max_right _ _, ?_⟩
  refine le_trans ?_ (le_max_left _ _)
  rw [heq, zpow_natCast]
  have hbq : (b : ℚ) ≤ (b : ℚ) * g ^ (ceilLogRatio a b g).toNat :=
    le_mul_of_one_le_right (by positivity) (one_le_pow₀ h1.le)
  calc (b : ℤ) = ⌈(b : ℚ)⌉ := (Int.ceil_natCast b).symm
    _ ≤ ⌈(b : ℚ) * g ^ (ceilLogRatio a b g).toNat⌉ := Int.ceil_le_ceil hbq

theorem exp_slots_mono (b : ℕ) (g : ℚ) (a a' : ℕ) (h1 : 1 < g) (hb : 0 < b)
    (hab : b < a) (haa : a ≤ a') : exp_slots b g a ≤ exp_slots b g a' := by
  have hcast : (b : ℚ) < (a : ℚ) := by exact_mod_cast hab
  have hcast' : (b : ℚ) < (a' : ℚ) :=
    lt_of_lt_of_le hcast (by exact_mod_cast haa)
  obtain ⟨heq, -⟩ := ceilLogRatio_spec a b g h1 hb hcast
  obtain ⟨heq', -⟩ := ceilLogRatio_spec a' b g h1 hb hcast'
  have hmono := ceilLogRatio_mono b g h1 hb a a' hcast haa
  unfold exp_slots
  apply max_le_max _ (by exact_mod_cast haa)
  apply Int.ceil_le_ceil
  apply mul_le_mul_of_nonneg_left _ (by positivity)
  rw [heq, heq', zpow_natCast, zpow_natCast]
  exact pow_le_pow_right₀ h1.le (by omega)

theorem linear_slots_ge (b : ℕ) (g : ℚ) (a : ℕ) (hg : 1 ≤ g) (hab : b ≤ a) :
    max (a : ℤ) (b : ℤ) ≤ linear_slots b g a := by
  unfold linear_slots
  have hsub : (0 : ℚ) ≤ (a : ℚ) - (b : ℚ) := by
    rw [sub_nonneg]
    exact_mod_cast hab
  rw [max_le_iff]
  constructor
  · have h1 : ((a : ℚ) - (b : ℚ)) ≤ ((a : ℚ) - (b : ℚ)) * g :=
      le_mul_of_one_le_right hsub hg
    have h2 : ((a : ℤ) - (b : ℤ)) ≤ ⌈((a : ℚ) - (b : ℚ)) * g⌉ := by
      calc (a : ℤ) - (b : ℤ) = ⌈(((a : ℤ) - (b : ℤ) : ℤ) : ℚ)⌉ := (Int.ceil_intCast _).symm
        _ = ⌈(a : ℚ) - (b : ℚ)⌉ := by push_cast; ring_nf
        _ ≤ ⌈((a : ℚ) - (b : ℚ)) * g⌉ := Int.ceil_le_ceil h1
    omega
  · have h3 : (0 : ℤ) ≤ ⌈((a : ℚ) - (b : ℚ)) * g⌉ :=
      Int.ceil_nonneg (mul_nonneg hsub (le_trans zero_le_one hg))
    omega

theorem linear_slots_strict_mono (b : ℕ) (g : ℚ) (n m : ℕ) (hg : 1 ≤ g) (hnm : n < m) :
    linear_slots b g n < linear_slots b g m := by
  unfold linear_slots
  have hg0 : (0 : ℚ) ≤ g := le_trans zero_le_one hg
  have hstep : ((n : ℚ) - (b : ℚ)) * g + 1 ≤ ((m : ℚ) - (b : ℚ)) * g := by
    have hd : (1 : ℚ) ≤ (m : ℚ) - (n : ℚ) := by
      have : (n : ℚ) + 1 ≤ (m : ℚ) := by exact_mod_cast hnm
      linarith
    have : g ≤ ((m : ℚ) - (n : ℚ)) * g := le_mul_of_one_le_left hg0 hd
    nlinarith
  have hceil : ⌈((n : ℚ) - (b : ℚ)) * g⌉ + 1 ≤ ⌈((m : ℚ) - (b : ℚ)) * g⌉ := by
    rw [← Int.ceil_add_one]
    exact Int.ceil_le_ceil hstep
  omega

theorem calculate_slots_at_most_base (cfg : ServerSlotsConfig) (n : ℕ) (h : n ≤ cfg.base) :
    calculate_slots cfg n = .ok (cfg.base : ℤ) := by
  unfold calculate_slots
  rw [if_pos h]

theorem calculate_slots_linear (b : ℕ) (g : ℚ) (n : ℕ) (h : ¬ n ≤ b) :
    calculate_slots ⟨b, g, "linear"⟩ n = .ok (linear_slots b g n) := by
  unfold calculate_slots
  rw [if_neg h, if_neg (by decide : ¬("linear" = "exponential"))]

theorem calculate_slots_exponential (b : ℕ) (g : ℚ) (n : ℕ) (h : ¬ n ≤ b) (hb : b ≠ 0)
    (hg0 : ¬ g ≤ 0) (hg1 : g ≠ 1) :
    calculate_slots ⟨b, g, "exponential"⟩ n = .ok (exp_slots b g n) := by
  unfold calculate_slots
  rw [if_neg h, if_pos rfl, if_neg hb, if_neg hg0, if_neg hg1]

end SlotAllocator

/-- Claim C6 (amended): for every configuration accepted by validation and
`n ≤ base`, `calculate_slots` returns `base` (any growth factor, both modes).
For linear growth the bounds require `growth_factor ≥ 1`: then the result is
`≥ max(n, base)` and strictly increasing above the base.  For exponential
growth they require `growth_factor > 1`: then the result is `≥ max(n, base)`
and non-decreasing — but not strictly increasing — above the base. -/
theorem slot_count_growth (b n m : ℕ) (g : ℚ) (hb : 10 ≤ b) :
    (∀ t, n ≤ b → SlotAllocator.calculate_slots ⟨b, g, t⟩ n = .ok (b : ℤ)) ∧
    (1 ≤ g → b < n →
      SlotAllocator.calculate_slots ⟨b, g, "linear"⟩ n =
          .ok (SlotAllocator.linear_slots b g n) ∧
        max (n : ℤ) (b : ℤ) ≤ SlotAllocator.linear_slots b g n) ∧
    (1 ≤ g → n < m →
      SlotAllocator.linear_slots b g n < SlotAllocator.linear_slots b g m) ∧
    (1 < g → b < n →
      SlotAllocator.calculate_slots ⟨b, g, "exponential"⟩ n =
          .ok (SlotAllocator.exp_slots b g n) ∧
        max (n : ℤ) (b : ℤ) ≤ SlotAllocator.exp_slots b g n) ∧
    (1 < g → b < n → n ≤ m →
      SlotAllocator.exp_slots b g n ≤ SlotAllocator.exp_slots b g m) := by
  refine ⟨?_, ?_, ?_, ?_, ?_⟩
  · intro t h
    exact SlotAllocator.calculate_slots_at_most_base ⟨b, g, t⟩ n h
  · intro hg hn
    exact ⟨SlotAllocator.calculate_slots_linear b g n (by omega),
      SlotAllocator.linear_slots_ge b g n hg (by omega)⟩
  · intro hg hnm
    exact SlotAllocator.linear_slots_strict_mono b g n m hg hnm
  · intro hg hn
    refine ⟨SlotAllocator.calculate_slots_exponential b g n (by omega) (by omega)
      (by intro hc; exact absurd (lt_of_le_of_lt hc one_pos) (by simp [not_lt.mpr hg.le]))
      (by intro hc; exact absurd (hc ▸ hg) (lt_irrefl 1)), ?_⟩
    exact SlotAllocator.exp_slots_ge b g n hg (by omega) hn
  · intro hg hn hm
    exact SlotAllocator.exp_slots_mono b g n m hg (by omega) hn hm

/-- Closed instance of `slot_count_growth`: base 10, linear factor 3/2,
15 active instances give 18 slots (the repository's own example). -/
theorem slot_count_growth_witness :
    (10 : ℕ) ≤ 10 ∧
      SlotAllocator.calculate_slots ⟨10, 3 / 2, "linear"⟩ 15 = .ok 18 := by
  refine ⟨le_rfl, ?_⟩
  have h := ((slot_count_growth 10 15 16 (3 / 2) le_rfl).2.1 (by norm_num) (by norm_num)).1
  rw [h]
  have hval : SlotAllocator.linear_slots 10 (3 / 2) 15 = 18 := by
    unfold SlotAllocator.linear_slots
    have hc : ⌈(((15 : ℕ) : ℚ) - ((10 : ℕ) : ℚ)) * (3 / 2)⌉ = 8 := by
      rw [Int.ceil_eq_iff]
      constructor <;> norm_num
    rw [hc]
    norm_num
  rw [hval]


/-- Counterexample to claim C6 as stated: the configuration `base = 10`,
linear growth with factor 1/2 passes validation yet gives
`calculate_slots 20 = 15 < 20`, violating `result ≥ max(n, base)`; and
`base = 10` with exponential factor 2 passes validation yet gives
`calculate_slots 11 = calculate_slots 12 = 20`, violating strict
monotonicity above the base. -/
theorem slot_count_growth_counterexample :
    validateConfig (mkAppConfig ⟨10, 1 / 2, "linear"⟩) = .ok () ∧
    SlotAllocator.calculate_slots ⟨10, 1 / 2, "linear"⟩ 20 = .ok 15 ∧
    ¬((20 : ℤ) ≤ 15) ∧
    validateConfig (mkAppConfig ⟨10, 2, "exponential"⟩) = .ok () ∧
    (10 : ℕ) < 11 ∧ (11 : ℕ) < 12 ∧
    SlotAllocator.calculate_slots ⟨10, 2, "exponential"⟩ 11 = .ok 20 ∧
    SlotAllocator.calculate_slots ⟨10, 2, "exponential"⟩ 12 = .ok 20 := by
  have hceil1 : SlotAllocator.ceilLogRatio 11 10 2 = 1 := by
    unfold SlotAllocator.ceilLogRatio
    rw [dif_pos (by norm_num : (1 : ℚ) < 2 ∧ (((10 : ℕ) : ℚ) < ((11 : ℕ) : ℚ)) ∧ 0 < (10 : ℕ))]
    norm_cast
    rw [Nat.find_eq_iff]
    refine ⟨by norm_num, ?_⟩
    intro mm hmm
    interval_cases mm
    norm_num
  have hceil2 : SlotAllocator.ceilLogRatio 12 10 2 = 1 := by
    unfold SlotAllocator.ceilLogRatio
    rw [dif_pos (by norm_num : (1 : ℚ) < 2 ∧ (((10 : ℕ) : ℚ) < ((12 : ℕ) : ℚ)) ∧ 0 < (10 : ℕ))]
    norm_cast
    rw [Nat.find_eq_iff]
    refine ⟨by norm_num, ?_⟩
    intro mm hmm
    interval_cases mm
    norm_num
  have hcpow : ⌈((10 : ℕ) : ℚ) * (2 : ℚ) ^ (1 : ℤ)⌉ = 20 := by
    rw [zpow_one]
    rw [Int.ceil_eq_iff]
    constructor <;> norm_num
  refine ⟨rfl, ?_, by norm_num, rfl, by norm_num, by norm_num, ?_, ?_⟩
  · rw [SlotAllocator.calculate_slots_linear 10 (1 / 2) 20 (by norm_num)]
    have hval : SlotAllocator.linear_slots 10 (1 / 2) 20 = 15 := by
      unfold SlotAllocator.linear_slots
      have hc : ⌈(((20 : ℕ) : ℚ) - ((10 : ℕ) : ℚ)) * (1 / 2)⌉ = 5 := by
        rw [Int.ceil_eq_iff]
        constructor <;> norm_num
      rw [hc]
      norm_num
    rw [hval]
  · rw [SlotAllocator.calculate_slots_exponential 10 2 11 (by norm_num) (by norm_num)
      (by norm_num) (by norm_num)]
    have hval : SlotAllocator.exp_slots 10 2 11 = 20 := by
      unfold SlotAllocator.exp_slots
      rw [hceil1, hcpow]
      norm_num
    rw [hval]
  · rw [SlotAllocator.calculate_slots_exponential 10 2 12 (by norm_num) (by norm_num)
      (by norm_num) (by norm_num)]
    have hval : SlotAllocator.exp_slots 10 2 12 = 20 := by
      unfold SlotAllocator.exp_slots
      rw [hceil2, hcpow]
      norm_num
    rw [hval]

/-- Claim C10: `_validate` never reads `growth_factor`, so base ≥ 10 with
`growth_type = "exponential"` and `growth_factor = 1` passes validation, and
for every active count above the base `calculate_slots` raises
`ZeroDivisionError` (Python divides by `math.log(1.0) = 0.0`). -/
theorem growth_factor_one_zero_division (b n : ℕ) (hb : 10 ≤ b) (hn : b < n) :
    validateConfig (mkAppConfig ⟨b, 1, "exponential"⟩) = .ok () ∧
      SlotAllocator.calculate_slots ⟨b, 1, "exponential"⟩ n = .error .zeroDivision := by
  constructor
  · unfold validateConfig mkAppConfig
    have h10 : ¬(b < 10) := by omega
    simp [h10]
  · unfold SlotAllocator.calculate_slots
    rw [if_neg (show ¬ n ≤ b by omega), if_pos rfl, if_neg (show b ≠ 0 by omega),
      if_neg (show ¬ (1 : ℚ) ≤ 0 by norm_num), if_pos rfl]

/-- Closed instance of `growth_factor_one_zero_division` at base 10 and
active count 11. -/
theorem growth_factor_one_zero_division_witness :
    (10 : ℕ) ≤ 10 ∧ (10 : ℕ) < 11 ∧
      SlotAllocator.calculate_slots ⟨10, 1, "exponential"⟩ 11 = .error .zeroDivision :=
  ⟨le_rfl, by norm_num,
    (growth_factor_one_zero_division 10 11 le_rfl (by norm_num)).2⟩

end HaproxyDiscovery
